import Mathlib

/-!
Verification of the document ingestion and answer-synthesis pipeline of the
court-prep repository, against its natural-language specification.

The definitions below are shallow embeddings of the TypeScript source:

* `chunkText`, `buildChunks` — `src/app/api/jobs/ingest/process/route.ts`
  (the Chunker);
* `reindexDocumentChunks` — the delete-then-insert chunk step of `processJob`;
* `acquireMemoryRebuildLock`, `releaseMemoryRebuildLock`,
  `ingestMemoryPhase` — `src/lib/memory.ts` and the lock usage in `processJob`;
* `rebuildCaseMemory` — `src/lib/memory.ts`, with the LLM modelled as an
  oracle giving each batch's outcome;
* the retrieval post-filter, the `SourceRef` schema, the documents-list
  fast path, and the citation-retry pipeline — the chat route
  (`src/app/api/chat/route.ts`) and `src/lib/schemas.ts`;
* `getOrCreateCase` — `src/lib/cases.ts`.

JavaScript strings are sequences of UTF-16 code units; page text is modelled
as `List Char` (one `Char` per code unit position), which preserves every
property at stake here (lengths, slicing, trimming, windowing).
-/

namespace CourtPrep

/-! ## Chunker (`chunkText`, `buildChunks`)

Source (`src/app/api/jobs/ingest/process/route.ts`):

```
function chunkText(text, chunkSize, overlap) {
  const chunks = [];
  if (!text) return chunks;
  let start = 0;
  while (start < text.length) {
    const end = Math.min(start + chunkSize, text.length);
    const chunk = text.slice(start, end).trim();
    if (chunk) chunks.push(chunk);
    if (end === text.length) break;
    start = Math.max(0, end - overlap);
  }
  return chunks;
}
```

The `while` loop is modelled with explicit fuel: `chunkTextFuel` returns
`none` exactly when the loop runs for more iterations than the supplied fuel,
so statements about termination and non-termination of the source loop become
statements about `chunkTextFuel`.  `String.prototype.trim` is `trimChars`.
-/

/-- Leading whitespace removal (one side of `String.prototype.trim`). -/
def dropLeadingWs (l : List Char) : List Char :=
  l.dropWhile Char.isWhitespace

/-- `String.prototype.trim`: remove whitespace from both ends. -/
def trimChars (l : List Char) : List Char :=
  ((dropLeadingWs l).reverse.dropWhile Char.isWhitespace).reverse

/-- `text.slice(start, end)` for `start ≤ end ≤ length`: the code units from
position `start` (inclusive) to `e` (exclusive). -/
def sliceChars (l : List Char) (start e : Nat) : List Char :=
  (l.drop start).take (e - start)

/-- One step of the `chunkText` loop body, with `fuel` bounding the number of
iterations.  `none` means the loop did not finish within `fuel` iterations. -/
def chunkTextFuel (text : List Char) (chunkSize overlap : Nat) :
    Nat → Nat → Option (List (List Char))
  | _start, 0 => none
  | start, fuel + 1 =>
    if start < text.length then
      let e := min (start + chunkSize) text.length
      let chunk := trimChars (sliceChars text start e)
      if e = text.length then
        some (if chunk.isEmpty then [] else [chunk])
      else
        (chunkTextFuel text chunkSize overlap (e - overlap) fuel).map
          (fun rest => if chunk.isEmpty then rest else chunk :: rest)
    else
      some []

/-- `chunkText`: the loop starting at `start = 0`.  The fuel
`text.length + 2` suffices whenever `overlap < chunkSize` (proved below); the
`getD []` default is never taken in that regime. -/
def chunkText (text : List Char) (chunkSize overlap : Nat) : List (List Char) :=
  (chunkTextFuel text chunkSize overlap 0 (text.length + 2)).getD []

/-- A page of extracted text (`ExtractedPage` in the route). -/
structure ExtractedPage where
  pageNumber : Option Nat
  text : List Char
deriving DecidableEq

/-- One produced chunk record (page number, global chunk index, text). -/
structure ChunkRec where
  pageNumber : Option Nat
  chunkIndex : Nat
  text : List Char
deriving DecidableEq

/-- The inner `for (const text of pageChunks)` loop of `buildChunks`: tag each
chunk of one page with the running global `chunkIndex`. -/
def tagChunks (pn : Option Nat) : Nat → List (List Char) → List ChunkRec
  | _, [] => []
  | idx, c :: cs => ⟨pn, idx, c⟩ :: tagChunks pn (idx + 1) cs

/-- The outer `for (const page of pages)` loop of `buildChunks`, threading the
mutable `chunkIndex` counter. -/
def buildChunksAux : List ExtractedPage → Nat → List ChunkRec
  | [], _ => []
  | p :: ps, idx =>
    let pageChunks := chunkText p.text 1000 150
    tagChunks p.pageNumber idx pageChunks ++
      buildChunksAux ps (idx + pageChunks.length)

/-- `buildChunks(pages)`: chunk every page with size 1000 / overlap 150,
numbering chunks globally from 0. -/
def buildChunks (pages : List ExtractedPage) : List ChunkRec :=
  buildChunksAux pages 0

/-! ### Specification-side description of the window sequence

The spec says: slide a window of `size` characters advancing by
`size - overlap`, trim, drop empties.  `windowCount` counts the windows the
loop takes over a text of length `m` (ceiling-style, one extra final window),
and `windowsFrom` lists the raw (untrimmed) windows by index. -/

/-- Number of windows over a tail of length `m`: none for empty text, one if
the window covers it, otherwise one plus the windows over the text shortened
by one step. -/
def windowCount (m size step : Nat) : Nat :=
  if step = 0 then 0
  else if m = 0 then 0
  else if m ≤ size then 1
  else windowCount (m - step) size step + 1
termination_by m
decreasing_by
  simp_all
  omega

/-- The raw windows of `text` from position `start`, advancing by `step`. -/
def windowsFrom (text : List Char) (size step start : Nat) : List (List Char) :=
  (List.range (windowCount (text.length - start) size step)).map
    (fun k => (text.drop (start + k * step)).take size)

/-- Concrete one-page input used to instantiate the Chunker theorems. -/
def chunkerTestPages : List ExtractedPage :=
  [⟨some 1, [' ', 'a']⟩]

/-! ## Reindexing a document (`processJob`, chunk step)

Source (`src/app/api/jobs/ingest/process/route.ts`, `processJob`):

```
await prisma.documentChunk.deleteMany({ where: { documentId: document.id } });
const chunks = buildChunks(extracted.pages);
if (chunks.length > 0) {
  const embeddings = await embedTexts(chunks.map((chunk) => chunk.text));
  ...
  await prisma.documentChunk.create({ data: { caseId, documentId,
    pageNumber, chunkIndex, text, embeddingJson: embedding } });
}
```

The `DocumentChunk` table is modelled as a list of rows; the external
embedding call (`embedTexts`, §6 of the spec: vectors parallel to the input
texts) is modelled as a per-text function `embed`.  The optional raw-SQL
native-vector column update duplicates `embeddingJson` and is elided. -/

/-- A `DocumentChunk` row. -/
structure ChunkRow where
  caseId : String
  documentId : String
  pageNumber : Option Nat
  chunkIndex : Nat
  text : List Char
  embeddingJson : List Int
deriving DecidableEq

/-- The delete-then-insert chunk step of `processJob` for one document:
delete every row of the target document, then insert the freshly built
chunks (the `chunks.length > 0` guard is a no-op on the resulting table). -/
def reindexDocumentChunks (table : List ChunkRow) (caseId documentId : String)
    (pages : List ExtractedPage) (embed : List Char → List Int) :
    List ChunkRow :=
  let remaining := table.filter (fun r => !(r.documentId == documentId))
  remaining ++ (buildChunks pages).map (fun c =>
    ⟨caseId, documentId, c.pageNumber, c.chunkIndex, c.text, embed c.text⟩)

/-! ## Memory-rebuild lock (`src/lib/memory.ts`, and its use in `processJob`)

```
export async function acquireMemoryRebuildLock(caseId) {
  const result = await prisma.case.updateMany({
    where: { id: caseId, memoryRebuildInProgress: false },
    data: { memoryRebuildInProgress: true, memoryRebuildRequestedAt: new Date() },
  });
  return result.count > 0;
}
export async function releaseMemoryRebuildLock(caseId) {
  await prisma.case.update({ where: { id: caseId },
    data: { memoryRebuildInProgress: false } });
}
```

The conditional `updateMany` is the database's atomic compare-and-set: it
matches the case row exactly when the flag is `false`.  `ingestMemoryPhase`
is step 8 of `processJob`: acquire, and if acquired run the rebuild inside
`try ... finally release`. -/

/-- The lock-relevant columns of one `Case` row. -/
structure CaseLock where
  memoryRebuildInProgress : Bool
  memoryRebuildRequestedAt : Option Nat
deriving DecidableEq

/-- `acquireMemoryRebuildLock`: conditional update, returns the new row and
whether a row was matched (`result.count > 0`). -/
def acquireMemoryRebuildLock (c : CaseLock) (now : Nat) : CaseLock × Bool :=
  if c.memoryRebuildInProgress = false then (⟨true, some now⟩, true)
  else (c, false)

/-- `releaseMemoryRebuildLock`: unconditionally clear the flag. -/
def releaseMemoryRebuildLock (c : CaseLock) : CaseLock :=
  { c with memoryRebuildInProgress := false }

/-- Step 8 of `processJob`: `const acquired = await acquireMemoryRebuildLock(...);
if (acquired) { try { await rebuildCaseMemory(...) } finally { await
releaseMemoryRebuildLock(...) } }`.  `rebuildThrows` says whether the rebuild
raises; returns (final lock row, whether the rebuild ran, whether an
exception propagates to the caller — always after the release). -/
def ingestMemoryPhase (c : CaseLock) (now : Nat) (rebuildThrows : Bool) :
    CaseLock × Bool × Bool :=
  let acq := acquireMemoryRebuildLock c now
  if acq.2 then (releaseMemoryRebuildLock acq.1, true, rebuildThrows)
  else (acq.1, false, false)

/-! ## Case memory rebuild (`src/lib/memory.ts`, `rebuildCaseMemory`)

For each target document (creation order), the code loads its chunks, skips
the document when it has none, deletes the document's existing
CaseEntity/CaseFact/TimelineEvent/Obligation rows, partitions the chunks
into batches of 20, and for each batch calls the LLM inside a 45-second
`withTimeout`, extracts the first JSON object from the output, parses it and
validates with `MemoryExtractionSchema.safeParse`:

```
const parsed = MemoryExtractionSchema.safeParse(payload);
if (!parsed.success) { continue; }
```

Only the `safeParse` failure is caught (`continue`); the `withTimeout` abort
and `extractJson`/`JSON.parse` failures throw, and nothing inside
`rebuildCaseMemory` catches them.  The LLM call is modelled as an oracle
giving each (document, batch index) one of three outcomes; the payload items
are opaque strings (their internal structure plays no role in the claims).
The typed tables scoped to one case are modelled as a map from document id
to that document's rows.  The rebuild returns the resulting state and
whether an exception propagated to the caller. -/

/-- A `DocumentChunk` row as loaded by `rebuildCaseMemory`. -/
structure MemChunk where
  pageNumber : Option Nat
  chunkIndex : Nat
  text : String
deriving DecidableEq

/-- A document targeted by the rebuild (chunks in (page, chunkIndex) order). -/
structure MemDoc where
  id : String
  title : String
  chunks : List MemChunk
deriving DecidableEq

/-- A schema-valid extraction payload; the four item collections are opaque
here, `documentType` is the `document_type` string field. -/
structure MemoryPayload where
  documentType : String
  entities : List String
  facts : List String
  timeline : List String
  obligations : List String
deriving DecidableEq

/-- Outcome of one batch's LLM call, as seen by the control flow:
`valid` = JSON found and `safeParse` succeeded; `invalid` = JSON found but
`safeParse` failed (the batch is skipped); `thrown` = the 45s timeout fired
or no JSON object could be extracted (an exception propagates). -/
inductive BatchOutcome where
  | valid (payload : MemoryPayload)
  | invalid
  | thrown
deriving DecidableEq

/-- The memory rows stored for one document. -/
structure MemoryRows where
  entities : List String
  facts : List String
  timeline : List String
  obligations : List String
deriving DecidableEq

def emptyMemoryRows : MemoryRows := ⟨[], [], [], []⟩

/-- The per-case memory tables (rows and inferred document type, per
document id). -/
structure CaseMemoryState where
  rows : String → MemoryRows
  docType : String → Option String

/-- `buildChunkContext`: page-labelled excerpts joined by blank lines.  The
JS truthiness test `chunk.pageNumber ? ... : "Page n/a"` treats page 0 like
null. -/
def buildChunkContext (chunks : List MemChunk) : String :=
  String.intercalate "\n\n" (chunks.map fun c =>
    let pageLabel := match c.pageNumber with
      | some n => if n = 0 then "Page n/a" else "Page " ++ toString n
      | none => "Page n/a"
    "[" ++ pageLabel ++ "] " ++ c.text)

/-- The `chunkBatches` loop body with explicit iteration fuel (each
iteration consumes at least one element, so `length + 1` iterations always
suffice; a batch size of 0 would not terminate in the source and yields `[]`
here). -/
def chunkBatchesGo {α : Type} : Nat → List α → Nat → List (List α)
  | 0, _, _ => []
  | _ + 1, _, 0 => []
  | _ + 1, [], _ + 1 => []
  | fuel + 1, a :: l', m + 1 =>
    ((a :: l').take (m + 1)) :: chunkBatchesGo fuel ((a :: l').drop (m + 1)) (m + 1)

/-- `chunkBatches(items, batchSize)`: consecutive slices of `batchSize`
items (`for (i = 0; i < items.length; i += batchSize) slice(i, i + n)`);
only ever called with batch size 20. -/
def chunkBatches {α : Type} (l : List α) (n : Nat) : List (List α) :=
  chunkBatchesGo (l.length + 1) l n

/-- The running accumulators of the per-document batch loop
(`documentType`, `allEntities`, `allFacts`, `allTimeline`,
`allObligations`). -/
structure ExtractAccum where
  documentType : Option String
  entities : List String
  facts : List String
  timeline : List String
  obligations : List String
deriving DecidableEq

def emptyAccum : ExtractAccum := ⟨none, [], [], [], []⟩

/-- One successful batch: `if (!documentType && parsed.data.document_type)`
(first non-empty wins), then push the four item collections. -/
def mergeBatch (acc : ExtractAccum) (p : MemoryPayload) : ExtractAccum :=
  { documentType :=
      match acc.documentType with
      | none => if p.documentType = "" then none else some p.documentType
      | some t => some t
    entities := acc.entities ++ p.entities
    facts := acc.facts ++ p.facts
    timeline := acc.timeline ++ p.timeline
    obligations := acc.obligations ++ p.obligations }

/-- The `for (const batch of batches)` loop: `invalid` batches are skipped
(`continue`), a `thrown` batch raises out of the whole rebuild. -/
def runBatches (oracle : String → Nat → BatchOutcome) (docId : String) :
    Nat → List (List MemChunk) → ExtractAccum → Except Unit ExtractAccum
  | _, [], acc => .ok acc
  | idx, _ :: bs, acc =>
    match oracle docId idx with
    | .thrown => .error ()
    | .invalid => runBatches oracle docId (idx + 1) bs acc
    | .valid p => runBatches oracle docId (idx + 1) bs (mergeBatch acc p)

/-- Delete the four typed collections scoped to (case, document). -/
def clearDocRows (s : CaseMemoryState) (docId : String) : CaseMemoryState :=
  { s with rows := fun d => if d = docId then emptyMemoryRows else s.rows d }

/-- Bulk-insert the accumulated items and persist the inferred document type
(left untouched when none was inferred). -/
def commitDoc (s : CaseMemoryState) (docId : String) (acc : ExtractAccum) :
    CaseMemoryState :=
  { rows := fun d =>
      if d = docId then ⟨acc.entities, acc.facts, acc.timeline, acc.obligations⟩
      else s.rows d
    docType := fun d =>
      if d = docId then
        match acc.documentType with
        | some t => some t
        | none => s.docType d
      else s.docType d }

/-- `rebuildCaseMemory`: documents in creation order; no-chunk documents are
skipped; each processed document is cleared and then committed, unless one
of its batches throws — the exception propagates immediately, leaving the
current document cleared-but-uncommitted and the remaining documents
untouched.  The boolean reports the propagated exception. -/
def rebuildCaseMemory : List MemDoc → (String → Nat → BatchOutcome) →
    CaseMemoryState → CaseMemoryState × Bool
  | [], _, s => (s, false)
  | d :: ds, oracle, s =>
    if d.chunks.length = 0 then rebuildCaseMemory ds oracle s
    else
      let cleared := clearDocRows s d.id
      match runBatches oracle d.id 0 (chunkBatches d.chunks 20) emptyAccum with
      | .error _ => (cleared, true)
      | .ok acc => rebuildCaseMemory ds oracle (commitDoc cleared d.id acc)

/-- The schema-valid payloads among the first `n` batch outcomes of one
document (specification side). -/
def validPayloads (oracle : String → Nat → BatchOutcome) (docId : String)
    (n : Nat) : List MemoryPayload :=
  (List.range n).filterMap fun i =>
    match oracle docId i with
    | .valid p => some p
    | _ => none

/-- The rows a list of payloads commits (specification side). -/
def rowsOfPayloads (ps : List MemoryPayload) : MemoryRows :=
  ⟨(ps.map fun p => p.entities).flatten,
    (ps.map fun p => p.facts).flatten,
    (ps.map fun p => p.timeline).flatten,
    (ps.map fun p => p.obligations).flatten⟩

/-- Concrete rebuild input falsifying C2's timeout clause: document d1's
single batch times out, document d2's single batch is valid. -/
def rebuildCexDocs : List MemDoc :=
  [⟨"d1", "first", [⟨some 1, 0, "x"⟩]⟩, ⟨"d2", "second", [⟨some 1, 0, "y"⟩]⟩]

def rebuildCexPayload : MemoryPayload := ⟨"order", ["e1"], ["f1"], [], []⟩

def rebuildCexOracle : String → Nat → BatchOutcome := fun d _ =>
  if d = "d1" then .thrown else .valid rebuildCexPayload

def rebuildCexState : CaseMemoryState := ⟨fun _ => emptyMemoryRows, fun _ => none⟩

/-! ## `getOrCreateCase` (`src/lib/cases.ts`)

```
export async function getOrCreateCase(caseId?: string) {
  if (caseId) {
    const existing = await prisma.case.findUnique({ where: { id: caseId } });
    if (existing) return existing;
  }
  const existing = await prisma.case.findFirst({ orderBy: { createdAt: "asc" } });
  if (existing) return existing;
  return prisma.case.create({ data: { name: "Default Case" } });
}
```

The `Case` table is a list kept in ascending creation order, so
`findFirst(createdAt asc)` is `head?` and `create` appends.  `if (caseId)`
is JS truthiness: the lookup is skipped for a missing or empty-string id.
`create` is given the fresh row id as a parameter. -/

/-- The columns of a `Case` row used by `getOrCreateCase`. -/
structure CaseRec where
  id : String
  name : String
deriving DecidableEq

/-- `getOrCreateCase(caseId)`: returns the matching case if the id is known,
else the oldest existing case, else a newly created "Default Case"
(returning the possibly-extended table alongside). -/
def getOrCreateCase (caseId : Option String) (db : List CaseRec)
    (freshId : String) : CaseRec × List CaseRec :=
  let byId : Option CaseRec :=
    match caseId with
    | some cid => if cid = "" then none else db.find? (fun c => c.id == cid)
    | none => none
  match byId with
  | some c => (c, db)
  | none =>
    match db.head? with
    | some oldest => (oldest, db)
    | none => (⟨freshId, "Default Case"⟩, db ++ [⟨freshId, "Default Case"⟩])

/-! ## Chat answer data model (`src/lib/schemas.ts`)

The `StructuredAnswer` / `ChatResponse` shape and the `SourceRef`
discriminated union (`SourceRefSchema`, the `z.discriminatedUnion`
definition at lines 251–258 of `src/lib/schemas.ts`).  Zod string/number/
enum constraints become Lean field types; `.nullable()` becomes `Option`. -/

inductive Confidence where
  | high
  | medium
  | low
deriving DecidableEq

inductive EvidenceType where
  | fact
  | quote
  | comparison
deriving DecidableEq

inductive Strength where
  | strong
  | moderate
  | weak
deriving DecidableEq

inductive RiskLevel where
  | high
  | medium
  | low
deriving DecidableEq

inductive StepOwner where
  | user
  | lawyer
  | both
deriving DecidableEq

inductive StepPriority where
  | high
  | medium
  | low
deriving DecidableEq

inductive RefType where
  | document
  | transcript_message
  | email
  | timeline_event
  | lawyer_note
  | user_note
deriving DecidableEq

/-- A citation locator (`section` is a Lean keyword, so that field is named
`sectionLabel` here). -/
structure Locator where
  label : String
  page_start : Option Int
  page_end : Option Int
  sectionLabel : Option String
  quote : Option String
  timestamp : Option String
deriving DecidableEq

/-- A `SourceRef` object (any combination of fields; which combinations the
schema accepts is `sourceRefAccepted` below). -/
structure SourceRef where
  ref_type : RefType
  case_id : String
  document_version_id : Option String
  transcript_message_ids : Option (List String)
  email_id : Option String
  timeline_event_id : Option String
  lawyer_note_id : Option String
  locator : Locator
  confidence : Confidence
deriving DecidableEq

/-- `SourceRefSchema` (the discriminated union): which `SourceRef` objects
parse successfully.  Each variant requires its own id field present and all
the others `null`; the transcript variant requires at least one message id
(`z.array(z.string()).min(1)`); the `user_note` variant requires all five
id fields `null`. -/
def sourceRefAccepted (r : SourceRef) : Bool :=
  match r.ref_type with
  | .document =>
    r.document_version_id.isSome && r.transcript_message_ids.isNone &&
      r.email_id.isNone && r.timeline_event_id.isNone && r.lawyer_note_id.isNone
  | .transcript_message =>
    r.document_version_id.isNone &&
      (match r.transcript_message_ids with
       | some ids => decide (1 ≤ ids.length)
       | none => false) &&
      r.email_id.isNone && r.timeline_event_id.isNone && r.lawyer_note_id.isNone
  | .email =>
    r.document_version_id.isNone && r.transcript_message_ids.isNone &&
      r.email_id.isSome && r.timeline_event_id.isNone && r.lawyer_note_id.isNone
  | .timeline_event =>
    r.document_version_id.isNone && r.transcript_message_ids.isNone &&
      r.email_id.isNone && r.timeline_event_id.isSome && r.lawyer_note_id.isNone
  | .lawyer_note =>
    r.document_version_id.isNone && r.transcript_message_ids.isNone &&
      r.email_id.isNone && r.timeline_event_id.isNone && r.lawyer_note_id.isSome
  | .user_note =>
    r.document_version_id.isNone && r.transcript_message_ids.isNone &&
      r.email_id.isNone && r.timeline_event_id.isNone && r.lawyer_note_id.isNone

/-- How many of the five type-specific identifier fields are non-null. -/
def nonNullCount (r : SourceRef) : Nat :=
  (if r.document_version_id.isSome then 1 else 0) +
    (if r.transcript_message_ids.isSome then 1 else 0) +
    (if r.email_id.isSome then 1 else 0) +
    (if r.timeline_event_id.isSome then 1 else 0) +
    (if r.lawyer_note_id.isSome then 1 else 0)

/-- The non-null field matches the `ref_type` discriminant (specification
side; for `user_note` the spec's own table says "none"). -/
def discriminantMatches (r : SourceRef) : Bool :=
  match r.ref_type with
  | .document => r.document_version_id.isSome
  | .transcript_message =>
    match r.transcript_message_ids with
    | some ids => !ids.isEmpty
    | none => false
  | .email => r.email_id.isSome
  | .timeline_event => r.timeline_event_id.isSome
  | .lawyer_note => r.lawyer_note_id.isSome
  | .user_note =>
    r.document_version_id.isNone && r.transcript_message_ids.isNone &&
      r.email_id.isNone && r.timeline_event_id.isNone && r.lawyer_note_id.isNone

/-- A `user_note` SourceRef accepted by the schema with zero non-null
identifier fields (counterexample input for C8). -/
def userNoteCexRef : SourceRef :=
  ⟨.user_note, "case1", none, none, none, none, none,
    ⟨"my note", none, none, none, none, none⟩, .low⟩

structure Uncertainty where
  topic : String
  why : String
  needed_sources : List String
deriving DecidableEq

structure AnswerBlock where
  summary : String
  direct_answer : String
  confidence : Confidence
  uncertainties : List Uncertainty
deriving DecidableEq

structure EvidenceItem where
  claim : String
  source_refs : List SourceRef
  type : EvidenceType
deriving DecidableEq

structure HelpItem where
  point : String
  source_refs : List SourceRef
  strength : Strength
deriving DecidableEq

structure HurtItem where
  point : String
  source_refs : List SourceRef
  risk_level : RiskLevel
deriving DecidableEq

structure NextStep where
  action : String
  owner : StepOwner
  priority : StepPriority
deriving DecidableEq

structure LawyerQuestion where
  question : String
  why_it_matters : String
  source_refs : List SourceRef
deriving DecidableEq

structure MissingDoc where
  doc_name : String
  why : String
  priority : StepPriority
deriving DecidableEq

structure ResponseMeta where
  used_retrieval : Bool
  retrieval_notes : String
  safety_note : String
deriving DecidableEq

/-- `ChatResponseSchema` / StructuredAnswer. -/
structure ChatResponse where
  answer : AnswerBlock
  evidence : List EvidenceItem
  what_helps : List HelpItem
  what_hurts : List HurtItem
  next_steps : List NextStep
  questions_for_lawyer : List LawyerQuestion
  missing_or_requested_docs : List MissingDoc
  meta : ResponseMeta
deriving DecidableEq

/-! ## Query predicates and chat-route helpers (`src/app/api/chat/route.ts`)

The regexes are alternations of case-insensitive literals (plus one
`exhibit\s+[a-z]` alternative); they are modelled as case-insensitive
substring tests.  JS strings are lowered per UTF-16 unit with
`Char.toLower`. -/

def lowerChars (s : String) : List Char :=
  s.toList.map Char.toLower

/-- Case-insensitive substring containment (one literal alternative of a
case-insensitive regex). -/
def containsIgnoreCase (hay pat : String) : Bool :=
  (lowerChars hay).tails.any fun t => (lowerChars pat).isPrefixOf t

/-- `/(what does|what do|say about|agreement|order|policy|report|evidence)/i` -/
def isDocumentContentQuestion (message : String) : Bool :=
  ["what does", "what do", "say about", "agreement", "order", "policy",
    "report", "evidence"].any (containsIgnoreCase message)

/-- `/custody|holiday|schedule|support|abuse|violence|relocation|parenting/i` -/
def isContestedTopic (message : String) : Bool :=
  ["custody", "holiday", "schedule", "support", "abuse", "violence",
    "relocation", "parenting"].any (containsIgnoreCase message)

/-- `/(separation agreement|agreement|parenting plan|parenting|holiday|holidays|schedule)/i` -/
def isAgreementFocusedQuery (message : String) : Bool :=
  ["separation agreement", "agreement", "parenting plan", "parenting",
    "holiday", "holidays", "schedule"].any (containsIgnoreCase message)

/-- `/(parenting|holiday|holidays|schedule|custody|visitation|exchange)/i` -/
def isParentingFocusedQuery (message : String) : Bool :=
  ["parenting", "holiday", "holidays", "schedule", "custody", "visitation",
    "exchange"].any (containsIgnoreCase message)

/-- The `exhibit\s+[a-z]` alternative, tested at the head of a lowered
character list: the literal "exhibit", one or more whitespace units, then a
letter a–z. -/
def exhibitRefAt (l : List Char) : Bool :=
  let pat := "exhibit".toList
  if pat.isPrefixOf l then
    match l.drop pat.length with
    | [] => false
    | c :: rest =>
      if c.isWhitespace then
        match rest.dropWhile Char.isWhitespace with
        | [] => false
        | d :: _ => decide ('a' ≤ d) && decide (d ≤ 'z')
      else false
  else false

/-- `/(exhibit\s+[a-z]|real estate|assets|liabilities|property|mortgage|bank|debt|retirement|equity|tax)/i` -/
def isIrrelevantParentingSection (text : String) : Bool :=
  (lowerChars text).tails.any exhibitRefAt ||
    ["real estate", "assets", "liabilities", "property", "mortgage", "bank",
      "debt", "retirement", "equity", "tax"].any (containsIgnoreCase text)

/-- A retrieved `DocumentChunk` row as used by the post-filter. -/
structure RetrievalRow where
  id : String
  documentId : String
  pageNumber : Option Nat
  chunkIndex : Nat
  text : String
deriving DecidableEq

/-- A document row as used for the agreement-candidate scan. -/
structure DocMeta where
  id : String
  title : String
  blobUrl : String
deriving DecidableEq

/-- `getBlobFileName`: the last path segment of the blob URL, falling back
to the given title on an empty segment or unparsable URL (URL parsing is
approximated by splitting on `/`). -/
def getBlobFileName (blobUrl fallback : String) : String :=
  match (blobUrl.splitOn "/").getLast? with
  | some lastSegment => if lastSegment = "" then fallback else lastSegment
  | none => fallback

/-- The indexed documents whose title or blob filename matches
`/separation agreement/i` (`agreementCandidates` ... `.map(doc => doc.id)`). -/
def agreementCandidateIds (docs : List DocMeta) : List String :=
  (docs.filter fun d =>
    containsIgnoreCase d.title "separation agreement" ||
      containsIgnoreCase (getBlobFileName d.blobUrl d.title)
        "separation agreement").map fun d => d.id

/-- The agreement-narrowing step: if the query targets an agreement and
candidates exist, keep only candidate documents' chunks — unless that
filter result is empty, in which case the results are left unchanged. -/
def agreementNarrow (message : String) (preferredIds : List String)
    (results : List RetrievalRow) : List RetrievalRow :=
  if isAgreementFocusedQuery message && !preferredIds.isEmpty then
    let filtered := results.filter fun r => preferredIds.contains r.documentId
    if !filtered.isEmpty then filtered else results
  else results

/-- The parenting-focused filter: drop chunks matching the
irrelevant-financial-section heuristic (no emptiness guard). -/
def parentingFilter (message : String) (results : List RetrievalRow) :
    List RetrievalRow :=
  if isParentingFocusedQuery message then
    results.filter fun r => !isIrrelevantParentingSection r.text
  else results

/-- Retrieval post-filtering as in the chat route: agreement narrowing,
then the parenting filter. -/
def postFilterResults (message : String) (preferredIds : List String)
    (results : List RetrievalRow) : List RetrievalRow :=
  parentingFilter message (agreementNarrow message preferredIds results)

/-- Concrete documents for the C6 counterexample. -/
def agreementCexDocs : List DocMeta :=
  [⟨"d1", "Separation Agreement", "https://blob.example/x.pdf"⟩]

/-- Concrete retrieval results for the C6 counterexample: one chunk of the
preferred document whose text matches the financial-section heuristic. -/
def agreementCexResults : List RetrievalRow :=
  [⟨"c1", "d1", some 1, 0, "Mortgage and tax details"⟩]

/-- Concrete rows for the C6 amended-theorem witness. -/
def agreementWitnessRows : List RetrievalRow :=
  [⟨"c1", "d1", some 1, 0, "alpha"⟩, ⟨"c2", "d2", some 1, 0, "beta"⟩]

/-! ## Documents-list fast path and no-indexed-content branch
(`src/app/api/chat/route.ts`) -/

/-- One entry of the documents list handed to
`buildDocumentsListResponse`. -/
structure DocListEntry where
  document_version_id : String
  title : String
  status : Option String
deriving DecidableEq

/-- `buildDocumentSourceRef`: a document SourceRef with only the document id
set and a label-only locator. -/
def buildDocumentSourceRef (caseId documentVersionId label : String) :
    SourceRef :=
  { ref_type := .document
    case_id := caseId
    document_version_id := some documentVersionId
    transcript_message_ids := none
    email_id := none
    timeline_event_id := none
    lawyer_note_id := none
    locator := ⟨label, none, none, none, none, none⟩
    confidence := .high }

/-- The `doc.status && doc.status !== "done"` truthiness test (an empty
string status is falsy). -/
def statusShown (status : Option String) : Bool :=
  match status with
  | some s => !(s == "") && !(s == "done")
  | none => false

/-- `buildDocumentsListResponse`: the documents-list answer assembled
directly from the document table.  `next_steps` carries the upload action
only when the documents list is empty; `missing_or_requested_docs` is
always empty. -/
def buildDocumentsListResponse (caseId : String)
    (documents : List DocListEntry) : ChatResponse :=
  let lines := documents.map fun d =>
    "- " ++ d.title ++ " (ID: " ++ d.document_version_id ++
      (match d.status with
       | some s => if statusShown d.status then ", status: " ++ s else ""
       | none => "") ++ ")"
  { answer :=
      { summary := "Documents on file for this case."
        direct_answer :=
          if documents.length = 0 then "No documents are on file yet."
          else String.intercalate "\n" ("Documents on file:" :: lines)
        confidence := .high
        uncertainties := [] }
    evidence := documents.map fun d =>
      { claim := "Document on file: " ++ d.title ++
          (match d.status with
           | some s => if statusShown d.status then " (status: " ++ s ++ ")" else ""
           | none => "")
        source_refs :=
          [buildDocumentSourceRef caseId d.document_version_id d.title]
        type := .fact }
    what_helps := []
    what_hurts := []
    next_steps :=
      if documents.length = 0 then
        [⟨"Upload a case document.", .user, .high⟩]
      else []
    questions_for_lawyer := []
    missing_or_requested_docs := []
    meta :=
      ⟨false, "Document list returned from the database.",
        "Neutral, document-grounded guidance only."⟩ }

/-- The zero-indexed-chunks branch of the chat `POST` handler: build the
documents-list response, overwrite summary, prepend the no-indexed-content
notice, and force the retrieval meta flags.  The second component counts
the LLM generation calls issued on this path — the branch returns before
any `createResponses` call, so it is 0. -/
def chatNoIndexedContentResponse (caseId requestId : String)
    (docs : List DocListEntry) : ChatResponse × Nat :=
  let r := buildDocumentsListResponse caseId docs
  ({ r with
      answer :=
        { r.answer with
          summary := "No indexed documents yet."
          direct_answer := String.intercalate "\n\n"
            ["I do not have any indexed documents for this case yet.",
              r.answer.direct_answer] }
      meta :=
        { r.meta with
          used_retrieval := false
          retrieval_notes := "No indexed docs. requestId=" ++ requestId } }, 0)

/-- Concrete documents list for the C7 counterexample: one uploaded (but
unindexed) document. -/
def noIndexedCexDocs : List DocListEntry :=
  [⟨"doc1", "Agreement", some "done"⟩]

/-! ## Citation-coverage validation and bounded retry
(`src/app/api/chat/route.ts`)

```
let parsed = parseChatResponse(initialResponse.text);
if (!parsed.success || needsCitationRetry(parsed.data) ||
    validateCitationCoverage({...})) {
  const retryResponse = await runResponse({...});
  parsed = parseChatResponse(retryResponse.text);
}
if (!parsed.success) { ...fixed failureResponse... }
```

Parsing the LLM output against the schema is external text processing; the
two calls' parse outcomes are the inputs `first` and `retry`
(`Option ChatResponse`, `none` = `safeParse` failed).  This models the
non-throwing paths: a timed-out generation call is handled by the outer
catch, not by this conditional. -/

/-- `needsCitationRetry` (the early-return chain as one disjunction). -/
def needsCitationRetry (parsed : ChatResponse) : Bool :=
  !parsed.meta.used_retrieval || parsed.evidence.isEmpty ||
    parsed.what_helps.any (fun item => item.source_refs.isEmpty) ||
    parsed.what_hurts.any (fun item => item.source_refs.isEmpty)

/-- `validateCitationCoverage` (returns true when the answer must be
regenerated). -/
def validateCitationCoverage (parsed : ChatResponse) (hasFiles : Bool)
    (message : String) : Bool :=
  (hasFiles && !parsed.meta.used_retrieval) ||
    (isDocumentContentQuestion message && parsed.evidence.isEmpty) ||
    (isContestedTopic message && parsed.what_hurts.isEmpty) ||
    parsed.what_helps.any (fun item => item.source_refs.isEmpty) ||
    parsed.what_hurts.any (fun item => item.source_refs.isEmpty)

/-- The retry-triggering condition (`!parsed.success || needsCitationRetry
|| validateCitationCoverage`; `||` short-circuits, so the coverage checks
run only on a successful parse). -/
def synthesisRetryCondition (first : Option ChatResponse) (hasFiles : Bool)
    (message : String) : Bool :=
  match first with
  | none => true
  | some parsed =>
    needsCitationRetry parsed || validateCitationCoverage parsed hasFiles message

/-- The fixed low-confidence failure answer returned when the final parse
fails. -/
def chatValidationFailureResponse (hasFiles : Bool) : ChatResponse :=
  { answer :=
      { summary := "Chat response failed validation."
        direct_answer :=
          "The assistant response could not be validated. Try rephrasing your question or try again."
        confidence := .low
        uncertainties :=
          [⟨"Response formatting",
            "The model returned invalid JSON or missing citations.",
            ["document"]⟩] }
    evidence := []
    what_helps := []
    what_hurts := []
    next_steps := [⟨"Retry the question.", .user, .medium⟩]
    questions_for_lawyer := []
    missing_or_requested_docs := []
    meta :=
      ⟨hasFiles, "Model output invalid; see server logs for raw output.",
        "Neutral, document-grounded guidance only."⟩ }

/-- The answer finally returned by the synthesis stage. -/
inductive SynthesisAnswer where
  | validated (r : ChatResponse)
  | failure (r : ChatResponse)
deriving DecidableEq

/-- The synthesis/validation/retry pipeline over the two parse outcomes:
retry iff the condition fires (counting retry generation calls), then
accept whatever parses, falling back to the fixed failure answer. -/
def synthesisPipeline (first retry : Option ChatResponse) (hasFiles : Bool)
    (message : String) : Nat × SynthesisAnswer :=
  if synthesisRetryCondition first hasFiles message then
    match retry with
    | some r => (1, .validated r)
    | none => (1, .failure (chatValidationFailureResponse hasFiles))
  else
    match first with
    | some r => (0, .validated r)
    | none => (0, .failure (chatValidationFailureResponse hasFiles))

/-- A retry parse outcome that itself still fails citation coverage (empty
evidence), used to witness that the retry is accepted regardless. -/
def uncoveredRetryResponse : ChatResponse :=
  ⟨⟨"s", "d", .low, []⟩, [], [], [], [], [], [], ⟨true, "", ""⟩⟩

theorem windowCount_of_le {m size step : Nat} (h1 : step ≠ 0) (h2 : m ≠ 0)
    (h3 : m ≤ size) : windowCount m size step = 1 := by
  conv_lhs => rw [windowCount]
  simp [h1, h2, h3]

theorem windowCount_of_gt {m size step : Nat} (h1 : step ≠ 0) (h3 : size < m) :
    windowCount m size step = windowCount (m - step) size step + 1 := by
  conv_lhs => rw [windowCount]
  have h2 : m ≠ 0 := by omega
  simp [h1, h2, Nat.not_le.mpr h3]

theorem windowsFrom_final {text : List Char} {size step start : Nat}
    (h1 : step ≠ 0) (hs : start < text.length)
    (he : text.length ≤ start + size) :
    windowsFrom text size step start = [(text.drop start).take size] := by
  unfold windowsFrom
  rw [windowCount_of_le h1 (by omega) (by omega)]
  simp [List.range_succ]

theorem windowsFrom_step {text : List Char} {size step start : Nat}
    (h1 : step ≠ 0) (hsz : start + size < text.length) :
    windowsFrom text size step start =
      (text.drop start).take size :: windowsFrom text size step (start + step) := by
  unfold windowsFrom
  rw [windowCount_of_gt h1 (by omega)]
  rw [List.range_succ_eq_map]
  simp only [List.map_cons, List.map_map, Nat.zero_mul, Nat.add_zero]
  congr 1
  · rw [show text.length - start - step = text.length - (start + step) by omega]
    apply List.map_congr_left
    intro k _
    simp only [Function.comp_apply, Nat.succ_mul]
    congr 2
    omega

/-- Closed form of the `chunkText` loop: starting anywhere, with positive
advance (`overlap < chunkSize`) and enough fuel, the loop returns the
trimmed, empties-dropped window sequence. -/
theorem chunkTextFuel_spec (text : List Char) (size ov : Nat) (h : ov < size) :
    ∀ fuel start, text.length - start < fuel →
      chunkTextFuel text size ov start fuel =
        some (((windowsFrom text size (size - ov) start).map trimChars).filter
          (fun c => !c.isEmpty)) := by
  have hstep : size - ov ≠ 0 := by omega
  intro fuel
  induction fuel with
  | zero => intro start hf; omega
  | succ fuel ih =>
    intro start hf
    by_cases hs : start < text.length
    · by_cases he : text.length ≤ start + size
      · have hmin : min (start + size) text.length = text.length := by omega
        have hslice : sliceChars text start text.length = (text.drop start).take size := by
          unfold sliceChars
          rw [List.take_of_length_le (by simp only [List.length_drop]; omega),
            List.take_of_length_le (by simp only [List.length_drop]; omega)]
        simp only [chunkTextFuel, if_pos hs, hmin, if_pos rfl, hslice]
        rw [windowsFrom_final hstep hs he]
        simp only [List.map_cons, List.map_nil, List.filter_cons, List.filter_nil]
        by_cases hem : (trimChars ((text.drop start).take size)).isEmpty <;>
          simp [hem]
      · have hmin : min (start + size) text.length = start + size := by omega
        have hne : ¬ (start + size = text.length) := by omega
        have hslice : sliceChars text start (start + size) = (text.drop start).take size := by
          unfold sliceChars
          congr 1
          omega
        rw [windowsFrom_step hstep (show start + size < text.length by omega)]
        simp only [chunkTextFuel, if_pos hs, hmin, if_neg hne, hslice]
        have harg : start + size - ov = start + (size - ov) := by omega
        rw [harg, ih (start + (size - ov)) (by omega)]
        simp only [List.map_cons, List.filter_cons, Option.map_some']
        by_cases hem : (trimChars ((text.drop start).take size)).isEmpty <;>
          simp [hem]
    · simp only [chunkTextFuel, if_neg hs]
      unfold windowsFrom
      rw [show text.length - start = 0 by omega]
      simp [windowCount]

/-- `chunkText` (as called with 1000/150) equals the specification-side window
description whenever the overlap is smaller than the window size. -/
theorem chunkText_eq_windows (text : List Char) (size ov : Nat) (h : ov < size) :
    chunkText text size ov =
      ((windowsFrom text size (size - ov) 0).map trimChars).filter
        (fun c => !c.isEmpty) := by
  unfold chunkText
  rw [chunkTextFuel_spec text size ov h (text.length + 2) 0 (by omega)]
  rfl

theorem tagChunks_length (pn : Option Nat) (idx : Nat) (cs : List (List Char)) :
    (tagChunks pn idx cs).length = cs.length := by
  induction cs generalizing idx with
  | nil => rfl
  | cons c cs ih => simp [tagChunks, ih]

theorem tagChunks_map_idx (pn : Option Nat) (idx : Nat) (cs : List (List Char)) :
    (tagChunks pn idx cs).map (fun c => c.chunkIndex) =
      List.range' idx cs.length := by
  induction cs generalizing idx with
  | nil => rfl
  | cons c cs ih => simp [tagChunks, List.range'_succ, ih]

theorem tagChunks_map_pair (pn : Option Nat) (idx : Nat) (cs : List (List Char)) :
    (tagChunks pn idx cs).map (fun c => (c.pageNumber, c.text)) =
      cs.map (fun t => (pn, t)) := by
  induction cs generalizing idx with
  | nil => rfl
  | cons c cs ih => simp [tagChunks, ih]

theorem mem_tagChunks {c : ChunkRec} {pn : Option Nat} {idx : Nat}
    {cs : List (List Char)} (hc : c ∈ tagChunks pn idx cs) :
    c.pageNumber = pn ∧ c.text ∈ cs := by
  induction cs generalizing idx with
  | nil => cases hc
  | cons t cs ih =>
    rcases List.mem_cons.1 hc with hc | hc
    · simp [hc]
    · have := ih hc
      simp [this.1, this.2]

theorem buildChunksAux_map_idx (ps : List ExtractedPage) (idx : Nat) :
    (buildChunksAux ps idx).map (fun c => c.chunkIndex) =
      List.range' idx (buildChunksAux ps idx).length := by
  induction ps generalizing idx with
  | nil => rfl
  | cons p ps ih =>
    simp only [buildChunksAux, List.map_append, List.length_append,
      tagChunks_map_idx, tagChunks_length, ih, List.range'_append_1]
    rw [Nat.add_comm]

theorem buildChunksAux_map_pair (ps : List ExtractedPage) (idx : Nat) :
    (buildChunksAux ps idx).map (fun c => (c.pageNumber, c.text)) =
      (ps.map (fun p => (chunkText p.text 1000 150).map
        (fun t => (p.pageNumber, t)))).flatten := by
  induction ps generalizing idx with
  | nil => rfl
  | cons p ps ih =>
    simp only [buildChunksAux, List.map_append, List.map_cons,
      List.flatten_cons, tagChunks_map_pair, ih]

theorem mem_buildChunksAux {c : ChunkRec} {ps : List ExtractedPage} {idx : Nat}
    (hc : c ∈ buildChunksAux ps idx) :
    ∃ p ∈ ps, c.pageNumber = p.pageNumber ∧
      c.text ∈ chunkText p.text 1000 150 := by
  induction ps generalizing idx with
  | nil => cases hc
  | cons p ps ih =>
    rcases List.mem_append.1 hc with hc | hc
    · exact ⟨p, by simp, (mem_tagChunks hc).1, (mem_tagChunks hc).2⟩
    · obtain ⟨q, hq, h1, h2⟩ := ih hc
      exact ⟨q, by simp [hq], h1, h2⟩

/-- C3. The Chunker is deterministic: applied to a fixed page list it is a
pure function, so identical input yields identical chunk count and text.
`chunkIndex` counts globally from 0 across the whole document (the index list
is exactly `range`, hence strictly increasing), pages contribute their chunks
in page-processing order, each page's chunks are the windows advancing by
`size - overlap = 850` positions, whitespace-trimmed, with
empty-after-trimming windows dropped. -/
theorem buildChunks_deterministic_ordered (pages : List ExtractedPage) :
    (∀ qs, qs = pages → buildChunks qs = buildChunks pages)
    ∧ (buildChunks pages).map (fun c => c.chunkIndex) =
        List.range (buildChunks pages).length
    ∧ (buildChunks pages).map (fun c => (c.pageNumber, c.text)) =
        (pages.map (fun p => (chunkText p.text 1000 150).map
          (fun t => (p.pageNumber, t)))).flatten
    ∧ (∀ text, chunkText text 1000 150 =
        ((windowsFrom text 1000 850 0).map trimChars).filter
          (fun c => !c.isEmpty))
    ∧ (∀ c ∈ buildChunks pages, c.text ≠ [] ∧
        ∃ p ∈ pages, c.pageNumber = p.pageNumber ∧
          ∃ w ∈ windowsFrom p.text 1000 850 0, c.text = trimChars w) := by
  have hwin : ∀ text : List Char, chunkText text 1000 150 =
      ((windowsFrom text 1000 850 0).map trimChars).filter
        (fun c => !c.isEmpty) := by
    intro text
    have := chunkText_eq_windows text 1000 150 (by norm_num)
    simpa using this
  refine ⟨fun qs hqs => by rw [hqs], ?_, buildChunksAux_map_pair pages 0, hwin, ?_⟩
  · rw [show buildChunks pages = buildChunksAux pages 0 from rfl,
      buildChunksAux_map_idx, List.range_eq_range']
  · intro c hc
    obtain ⟨p, hp, hpn, htext⟩ := mem_buildChunksAux hc
    rw [hwin p.text] at htext
    rcases List.mem_filter.1 htext with ⟨hmem, hne⟩
    obtain ⟨w, hw, hweq⟩ := List.mem_map.1 hmem
    refine ⟨?_, p, hp, hpn, w, hw, hweq.symm⟩
    intro hnil
    rw [hnil] at hne
    simp at hne

/-- Witness for C3 at a concrete one-page input. -/
theorem buildChunks_deterministic_ordered_witness :
    buildChunks chunkerTestPages = buildChunks chunkerTestPages ∧
      (⟨some 1, 0, ['a']⟩ : ChunkRec).text ≠ [] :=
  ⟨(buildChunks_deterministic_ordered chunkerTestPages).1 chunkerTestPages rfl,
    ((buildChunks_deterministic_ordered chunkerTestPages).2.2.2.2
      ⟨some 1, 0, ['a']⟩ (by decide)).1⟩

/-- C9. `chunkText` terminates for every input under the precondition
`overlap < chunkSize` (which holds at the only call site, `1000`/`150`):
with that precondition the loop finishes within `length + 2` iterations
(each iteration reaches the end and breaks, or advances the window start by
`chunkSize - overlap > 0`).  Without it, for any text longer than
`chunkSize`, the loop start never advances and no amount of fuel makes the
loop finish. -/
theorem chunkText_terminates_iff_overlap_lt_size :
    (∀ (text : List Char) (size ov : Nat), ov < size →
      (chunkTextFuel text size ov 0 (text.length + 2)).isSome = true)
    ∧ ((150 : Nat) < 1000)
    ∧ (∀ (text : List Char) (size ov : Nat), size ≤ ov → size < text.length →
      ∀ fuel, chunkTextFuel text size ov 0 fuel = none) := by
  refine ⟨?_, by norm_num, ?_⟩
  · intro text size ov h
    rw [chunkTextFuel_spec text size ov h (text.length + 2) 0 (by omega)]
    rfl
  · intro text size ov h1 h2 fuel
    induction fuel with
    | zero => rfl
    | succ fuel ih =>
      have hs : 0 < text.length := by omega
      have hmin : min (0 + size) text.length = size := by omega
      have hne : ¬ (size = text.length) := by omega
      simp only [chunkTextFuel, if_pos hs, hmin, if_neg hne]
      rw [show size - ov = 0 by omega, ih]
      rfl

/-- Witness for C9 at concrete inputs: `['a','b','c']` with size 2 / overlap 1
terminates; with size 1 / overlap 2 the loop never finishes. -/
theorem chunkText_terminates_iff_overlap_lt_size_witness :
    (chunkTextFuel ['a', 'b', 'c'] 2 1 0 5).isSome = true ∧
      chunkTextFuel ['a', 'b', 'c'] 1 2 0 9 = none :=
  ⟨chunkText_terminates_iff_overlap_lt_size.1 ['a', 'b', 'c'] 2 1 (by norm_num),
    chunkText_terminates_iff_overlap_lt_size.2.2 ['a', 'b', 'c'] 1 2
      (by norm_num) (by norm_num) 9⟩

theorem filter_inserted_rows_eq (caseId documentId : String)
    (embed : List Char → List Int) (cs : List ChunkRec) :
    ((cs.map fun c => (⟨caseId, documentId, c.pageNumber, c.chunkIndex,
        c.text, embed c.text⟩ : ChunkRow)).filter
      (fun r => r.documentId == documentId)) =
    cs.map fun c => (⟨caseId, documentId, c.pageNumber, c.chunkIndex,
        c.text, embed c.text⟩ : ChunkRow) := by
  induction cs with
  | nil => rfl
  | cons c cs ih => simp [List.filter_cons, ih]

theorem filter_inserted_rows_ne (caseId documentId : String)
    (embed : List Char → List Int) (cs : List ChunkRec) :
    ((cs.map fun c => (⟨caseId, documentId, c.pageNumber, c.chunkIndex,
        c.text, embed c.text⟩ : ChunkRow)).filter
      (fun r => !(r.documentId == documentId))) = [] := by
  induction cs with
  | nil => rfl
  | cons c cs ih => simp [List.filter_cons, ih]

theorem filter_remaining_rows_eq (documentId : String) (table : List ChunkRow) :
    ((table.filter (fun r => !(r.documentId == documentId))).filter
      (fun r => r.documentId == documentId)) = [] := by
  induction table with
  | nil => rfl
  | cons r table ih =>
    by_cases hr : r.documentId = documentId <;>
      simp [List.filter_cons, hr, ih]

theorem filter_remaining_rows_ne (documentId : String) (table : List ChunkRow) :
    ((table.filter (fun r => !(r.documentId == documentId))).filter
      (fun r => !(r.documentId == documentId))) =
      table.filter (fun r => !(r.documentId == documentId)) := by
  induction table with
  | nil => rfl
  | cons r table ih =>
    by_cases hr : r.documentId = documentId <;>
      simp [List.filter_cons, hr, ih]

/-- C4. Reprocessing a document that already has chunks deletes every
pre-existing row of that document before inserting the rebuilt chunks: the
document's rows afterwards equal those of a fresh run on the same extracted
input (same count, same per-index text), re-running again changes nothing
(never double-counted), and other documents' rows are untouched. -/
theorem reindexDocumentChunks_idempotent (table : List ChunkRow)
    (caseId documentId : String) (pages : List ExtractedPage)
    (embed : List Char → List Int) :
    ((reindexDocumentChunks table caseId documentId pages embed).filter
        (fun r => r.documentId == documentId) =
      (reindexDocumentChunks [] caseId documentId pages embed).filter
        (fun r => r.documentId == documentId))
    ∧ ((reindexDocumentChunks table caseId documentId pages embed).filter
        (fun r => r.documentId == documentId)).length =
        (buildChunks pages).length
    ∧ ((reindexDocumentChunks table caseId documentId pages embed).filter
        (fun r => r.documentId == documentId)).map (fun r => r.text) =
        (buildChunks pages).map (fun c => c.text)
    ∧ ((reindexDocumentChunks
          (reindexDocumentChunks table caseId documentId pages embed)
          caseId documentId pages embed).filter
        (fun r => r.documentId == documentId) =
      (reindexDocumentChunks table caseId documentId pages embed).filter
        (fun r => r.documentId == documentId))
    ∧ ((reindexDocumentChunks table caseId documentId pages embed).filter
        (fun r => !(r.documentId == documentId)) =
        table.filter (fun r => !(r.documentId == documentId))) := by
  unfold reindexDocumentChunks
  simp only [List.filter_append, List.map_append,
    filter_inserted_rows_eq, filter_inserted_rows_ne,
    filter_remaining_rows_eq, filter_remaining_rows_ne,
    List.filter_nil, List.nil_append, List.append_nil]
  simp

/-- C5. `acquireMemoryRebuildLock` returns true and sets the in-progress
flag iff the flag was false; of two acquisitions from an unlocked case
exactly one succeeds and the loser leaves the row unchanged (and, per
`ingestMemoryPhase`, does not run extraction); `releaseMemoryRebuildLock`
unconditionally clears the flag; and the ingest job's memory phase releases
the lock on every exit path of the rebuild it triggered, including when the
rebuild throws. -/
theorem memoryRebuildLock_mutual_exclusion :
    (∀ (c : CaseLock) (now : Nat),
      ((acquireMemoryRebuildLock c now).2 = true ↔
        c.memoryRebuildInProgress = false)
      ∧ (c.memoryRebuildInProgress = false →
          (acquireMemoryRebuildLock c now).1.memoryRebuildInProgress = true)
      ∧ (c.memoryRebuildInProgress = true →
          (acquireMemoryRebuildLock c now).1 = c))
    ∧ (∀ (c : CaseLock) (n1 n2 : Nat), c.memoryRebuildInProgress = false →
        (acquireMemoryRebuildLock c n1).2 = true ∧
        (acquireMemoryRebuildLock
          (acquireMemoryRebuildLock c n1).1 n2).2 = false)
    ∧ (∀ c : CaseLock,
        (releaseMemoryRebuildLock c).memoryRebuildInProgress = false)
    ∧ (∀ (c : CaseLock) (now : Nat) (rebuildThrows : Bool),
        (c.memoryRebuildInProgress = false →
          (ingestMemoryPhase c now rebuildThrows).1.memoryRebuildInProgress
              = false ∧
            (ingestMemoryPhase c now rebuildThrows).2.1 = true)
        ∧ (c.memoryRebuildInProgress = true →
            (ingestMemoryPhase c now rebuildThrows).1 = c ∧
            (ingestMemoryPhase c now rebuildThrows).2.1 = false)) := by
  refine ⟨?_, ?_, ?_, ?_⟩
  · rintro ⟨b, t⟩ now
    cases b <;> simp [acquireMemoryRebuildLock]
  · rintro ⟨b, t⟩ n1 n2 hb
    subst hb
    simp [acquireMemoryRebuildLock]
  · rintro ⟨b, t⟩
    simp [releaseMemoryRebuildLock]
  · rintro ⟨b, t⟩ now rebuildThrows
    cases b <;>
      simp [ingestMemoryPhase, acquireMemoryRebuildLock,
        releaseMemoryRebuildLock]

/-- Witness for C5: from an unlocked case, the first acquisition succeeds,
the second fails, and the memory phase ends unlocked even when the rebuild
throws. -/
theorem memoryRebuildLock_mutual_exclusion_witness :
    ((acquireMemoryRebuildLock ⟨false, none⟩ 0).2 = true ∧
      (acquireMemoryRebuildLock
        (acquireMemoryRebuildLock ⟨false, none⟩ 0).1 1).2 = false) ∧
    (ingestMemoryPhase ⟨false, none⟩ 0 true).1.memoryRebuildInProgress
        = false :=
  ⟨memoryRebuildLock_mutual_exclusion.2.1 ⟨false, none⟩ 0 1 rfl,
    ((memoryRebuildLock_mutual_exclusion.2.2.2 ⟨false, none⟩ 0 true).1 rfl).1⟩

theorem runBatches_eq_of_no_thrown (oracle : String → Nat → BatchOutcome)
    (docId : String) :
    ∀ (bs : List (List MemChunk)) (idx : Nat) (acc : ExtractAccum),
      (∀ i, i < bs.length → oracle docId (idx + i) ≠ .thrown) →
      runBatches oracle docId idx bs acc =
        .ok (((List.range bs.length).filterMap fun i =>
          match oracle docId (idx + i) with
          | .valid p => some p
          | _ => none).foldl mergeBatch acc) := by
  intro bs
  induction bs with
  | nil =>
    intro idx acc _
    rfl
  | cons b bs ih =>
    intro idx acc hno
    have h0 : oracle docId idx ≠ .thrown := by
      have := hno 0 (by simp)
      simpa using this
    have hshift : ∀ i, i < bs.length → oracle docId (idx + 1 + i) ≠ .thrown := by
      intro i hi
      have := hno (i + 1) (by simp; omega)
      rwa [show idx + (i + 1) = idx + 1 + i by omega] at this
    have hrest : List.filterMap (fun i =>
          match oracle docId (idx + i) with
          | .valid p => some p
          | _ => none) ((List.range bs.length).map Nat.succ) =
        List.filterMap (fun i =>
          match oracle docId (idx + 1 + i) with
          | .valid p => some p
          | _ => none) (List.range bs.length) := by
      rw [List.filterMap_map]
      apply List.filterMap_congr
      intro i _
      simp only [Function.comp_apply]
      rw [show idx + Nat.succ i = idx + 1 + i by omega]
    rw [List.length_cons, List.range_succ_eq_map, List.filterMap_cons, hrest]
    cases hb : oracle docId idx with
    | thrown => exact absurd hb h0
    | invalid =>
      have hstep : runBatches oracle docId idx (b :: bs) acc =
          runBatches oracle docId (idx + 1) bs acc := by
        simp [runBatches, hb]
      rw [hstep, ih (idx + 1) acc hshift]
      simp only [Nat.add_zero, hb]
    | valid p =>
      have hstep : runBatches oracle docId idx (b :: bs) acc =
          runBatches oracle docId (idx + 1) bs (mergeBatch acc p) := by
        simp [runBatches, hb]
      rw [hstep, ih (idx + 1) (mergeBatch acc p) hshift]
      simp only [Nat.add_zero, hb, List.foldl_cons]

theorem foldl_mergeBatch_fields (ps : List MemoryPayload) :
    ∀ acc : ExtractAccum,
      (ps.foldl mergeBatch acc).entities =
          acc.entities ++ (ps.map fun p => p.entities).flatten
      ∧ (ps.foldl mergeBatch acc).facts =
          acc.facts ++ (ps.map fun p => p.facts).flatten
      ∧ (ps.foldl mergeBatch acc).timeline =
          acc.timeline ++ (ps.map fun p => p.timeline).flatten
      ∧ (ps.foldl mergeBatch acc).obligations =
          acc.obligations ++ (ps.map fun p => p.obligations).flatten := by
  induction ps with
  | nil => intro acc; simp
  | cons p ps ih =>
    intro acc
    have h := ih (mergeBatch acc p)
    simp only [List.foldl_cons, List.map_cons, List.flatten_cons]
    refine ⟨?_, ?_, ?_, ?_⟩
    · rw [h.1]; simp [mergeBatch]
    · rw [h.2.1]; simp [mergeBatch]
    · rw [h.2.2.1]; simp [mergeBatch]
    · rw [h.2.2.2]; simp [mergeBatch]

theorem rebuildCaseMemory_cons_ok {d : MemDoc} {ds : List MemDoc}
    {oracle : String → Nat → BatchOutcome} {s : CaseMemoryState}
    {acc : ExtractAccum} (hlen : ¬ d.chunks.length = 0)
    (hrun : runBatches oracle d.id 0 (chunkBatches d.chunks 20) emptyAccum =
      .ok acc) :
    rebuildCaseMemory (d :: ds) oracle s =
      rebuildCaseMemory ds oracle (commitDoc (clearDocRows s d.id) d.id acc) := by
  simp [rebuildCaseMemory, hlen, hrun]

theorem rebuildCaseMemory_cons_error {d : MemDoc} {ds : List MemDoc}
    {oracle : String → Nat → BatchOutcome} {s : CaseMemoryState}
    (hlen : ¬ d.chunks.length = 0)
    (hrun : runBatches oracle d.id 0 (chunkBatches d.chunks 20) emptyAccum =
      .error ()) :
    rebuildCaseMemory (d :: ds) oracle s = (clearDocRows s d.id, true) := by
  simp [rebuildCaseMemory, hlen, hrun]

/-- Counterexample to C2's timeout clause: document d1's only batch times
out, document d2's only batch validates.  The claim says the timeout aborts
only d1's batch and d2 still commits `rebuildCexPayload`'s items; in the
code the timeout exception propagates out of `rebuildCaseMemory`, so the
run aborts and d2's rows stay empty — not the committed payload rows. -/
theorem rebuildCaseMemory_timeout_aborts_rebuild :
    (rebuildCaseMemory rebuildCexDocs rebuildCexOracle rebuildCexState).2
        = true
    ∧ (rebuildCaseMemory rebuildCexDocs rebuildCexOracle
        rebuildCexState).1.rows "d2" = emptyMemoryRows
    ∧ (rebuildCaseMemory rebuildCexDocs rebuildCexOracle
        rebuildCexState).1.rows "d2" ≠
        rowsOfPayloads (validPayloads rebuildCexOracle "d2" 1) := by
  refine ⟨by decide, by decide, by decide⟩

/-- C2 as amended.  (a) When no batch of a document throws, the document's
rebuild commits exactly the items of its schema-valid batches —
validation-failing batches are silently skipped while the other batches of
the same document still commit, and no exception propagates.  (b) A batch
whose extraction call times out raises: the rebuild aborts with the current
document left cleared and uncommitted, and later documents are not
processed at all. -/
theorem rebuildCaseMemory_skips_invalid_and_timeout_aborts :
    (∀ (d : MemDoc) (oracle : String → Nat → BatchOutcome)
      (s : CaseMemoryState), d.chunks ≠ [] →
      (∀ i, i < (chunkBatches d.chunks 20).length →
        oracle d.id i ≠ .thrown) →
      (rebuildCaseMemory [d] oracle s).2 = false ∧
      (rebuildCaseMemory [d] oracle s).1.rows d.id =
        rowsOfPayloads (validPayloads oracle d.id
          (chunkBatches d.chunks 20).length))
    ∧ (∀ (d1 d2 : MemDoc) (oracle : String → Nat → BatchOutcome)
        (s : CaseMemoryState), d1.chunks ≠ [] → d2.id ≠ d1.id →
        oracle d1.id 0 = .thrown →
        (rebuildCaseMemory [d1, d2] oracle s).2 = true ∧
        (rebuildCaseMemory [d1, d2] oracle s).1.rows d1.id =
          emptyMemoryRows ∧
        (rebuildCaseMemory [d1, d2] oracle s).1.rows d2.id =
          s.rows d2.id) := by
  constructor
  · intro d oracle s hne hno
    have hlen : ¬ d.chunks.length = 0 := by
      simpa [List.length_eq_zero] using hne
    have hrun := runBatches_eq_of_no_thrown oracle d.id
      (chunkBatches d.chunks 20) 0 emptyAccum (by simpa using hno)
    set ps := (List.range (chunkBatches d.chunks 20).length).filterMap
      (fun i => match oracle d.id (0 + i) with
        | .valid p => some p
        | _ => none) with hps
    have hps' : ps = validPayloads oracle d.id
        (chunkBatches d.chunks 20).length := by
      rw [hps]
      unfold validPayloads
      apply List.filterMap_congr
      intro i _
      rw [Nat.zero_add]
    rw [rebuildCaseMemory_cons_ok hlen hrun]
    have hfields := foldl_mergeBatch_fields ps emptyAccum
    refine ⟨rfl, ?_⟩
    show (commitDoc (clearDocRows s d.id) d.id
      (ps.foldl mergeBatch emptyAccum)).rows d.id = _
    rw [← hps']
    unfold rowsOfPayloads commitDoc
    simp only [if_pos rfl]
    have h1 := hfields.1
    have h2 := hfields.2.1
    have h3 := hfields.2.2.1
    have h4 := hfields.2.2.2
    simp only [emptyAccum, List.nil_append] at h1 h2 h3 h4
    simp [emptyAccum, h1, h2, h3, h4]
  · intro d1 d2 oracle s hne hne2 hth
    have hlen : ¬ d1.chunks.length = 0 := by
      simpa [List.length_eq_zero] using hne
    have hbatches : ∃ b bs, chunkBatches d1.chunks 20 = b :: bs := by
      cases hcs : d1.chunks with
      | nil => exact absurd hcs hne
      | cons c cs => exact ⟨_, _, rfl⟩
    obtain ⟨b, bs, hb⟩ := hbatches
    have hrun : runBatches oracle d1.id 0 (chunkBatches d1.chunks 20)
        emptyAccum = .error () := by
      rw [hb]
      simp [runBatches, hth]
    rw [rebuildCaseMemory_cons_error hlen hrun]
    refine ⟨rfl, ?_, ?_⟩
    · simp [clearDocRows]
    · simp [clearDocRows, hne2]

/-- Witness for C2's amended theorem at concrete inputs: a document whose
two batches are valid-then-invalid commits exactly the valid batch's items,
and the counterexample configuration aborts leaving d2 untouched. -/
theorem rebuildCaseMemory_skips_invalid_witness :
    (rebuildCaseMemory [⟨"d3", "t", [⟨some 1, 0, "z"⟩]⟩]
        (fun _ i => if i = 0 then .valid rebuildCexPayload else .invalid)
        rebuildCexState).2 = false
    ∧ (rebuildCaseMemory rebuildCexDocs rebuildCexOracle
        rebuildCexState).1.rows "d2" = rebuildCexState.rows "d2" :=
  ⟨(rebuildCaseMemory_skips_invalid_and_timeout_aborts.1
      ⟨"d3", "t", [⟨some 1, 0, "z"⟩]⟩
      (fun _ i => if i = 0 then .valid rebuildCexPayload else .invalid)
      rebuildCexState (by decide) (by decide)).1,
    (rebuildCaseMemory_skips_invalid_and_timeout_aborts.2
      ⟨"d1", "first", [⟨some 1, 0, "x"⟩]⟩ ⟨"d2", "second", [⟨some 1, 0, "y"⟩]⟩
      rebuildCexOracle rebuildCexState (by decide) (by decide)
      (by decide)).2.2⟩

/-- C10. `getOrCreateCase` never fails on an unknown case id: a known
(non-empty) id returns its case unchanged; an unknown id, a missing id, or
an empty-string id on a non-empty table silently returns the oldest case;
and on an empty table a new "Default Case" is created and returned, so any
request carrying an invalid caseId is attributed to the default case rather
than rejected. -/
theorem getOrCreateCase_never_rejects :
    (∀ (cid : String) (db : List CaseRec) (freshId : String) (c : CaseRec),
      cid ≠ "" → db.find? (fun x => x.id == cid) = some c →
      getOrCreateCase (some cid) db freshId = (c, db))
    ∧ (∀ (db : List CaseRec) (c0 : CaseRec) (rest : List CaseRec)
        (freshId : String), db = c0 :: rest →
      getOrCreateCase none db freshId = (c0, db))
    ∧ (∀ (cid : String) (db : List CaseRec) (c0 : CaseRec)
        (rest : List CaseRec) (freshId : String), db = c0 :: rest →
      cid ≠ "" → db.find? (fun x => x.id == cid) = none →
      getOrCreateCase (some cid) db freshId = (c0, db))
    ∧ (∀ (db : List CaseRec) (c0 : CaseRec) (rest : List CaseRec)
        (freshId : String), db = c0 :: rest →
      getOrCreateCase (some "") db freshId = (c0, db))
    ∧ (∀ (caseId : Option String) (freshId : String),
      getOrCreateCase caseId [] freshId =
        (⟨freshId, "Default Case"⟩, [⟨freshId, "Default Case"⟩])) := by
  refine ⟨?_, ?_, ?_, ?_, ?_⟩
  · intro cid db freshId c hcid hfind
    simp [getOrCreateCase, hcid, hfind]
  · intro db c0 rest freshId hdb
    subst hdb
    simp [getOrCreateCase]
  · intro cid db c0 rest freshId hdb hcid hfind
    subst hdb
    simp [getOrCreateCase, hcid, hfind]
  · intro db c0 rest freshId hdb
    subst hdb
    simp [getOrCreateCase]
  · intro caseId freshId
    cases caseId with
    | none => simp [getOrCreateCase]
    | some cid =>
      by_cases hcid : cid = "" <;> simp [getOrCreateCase, hcid]

/-- Counterexample to C6's final clause: for the query "parenting schedule"
(both agreement-focused and parenting-focused), with a Separation Agreement
document present among the results, the agreement narrowing keeps the
result set non-empty but the subsequent parenting-focused filter — which
has no emptiness guard — drops the only chunk (its text matches the
financial-section heuristic), so post-filtering turns a non-empty retrieval
result set into an empty one. -/
theorem postFilterResults_can_empty_nonempty :
    postFilterResults "parenting schedule"
        (agreementCandidateIds agreementCexDocs) agreementCexResults = [] ∧
      agreementCexResults ≠ [] :=
  ⟨by decide, by decide⟩

/-- C6 as amended.  The agreement-narrowing step behaves as claimed: when
the query targets a named separation agreement and a matching document's
chunks are present among the results, the results are narrowed to the
matching documents' chunks, and the narrowing alone never turns a non-empty
result set into an empty one.  But post-filtering as a whole is the
narrowing followed by the parenting-focused financial-section filter, which
has no such guard. -/
theorem postFilterResults_agreement_narrowing :
    (∀ (message : String) (pids : List String) (results : List RetrievalRow),
      agreementNarrow message pids results = [] → results = [])
    ∧ (∀ (message : String) (pids : List String) (results : List RetrievalRow),
        isAgreementFocusedQuery message = true → pids ≠ [] →
        results.filter (fun r => pids.contains r.documentId) ≠ [] →
        agreementNarrow message pids results =
          results.filter (fun r => pids.contains r.documentId))
    ∧ (∀ (message : String) (pids : List String) (results : List RetrievalRow),
        postFilterResults message pids results =
          if isParentingFocusedQuery message then
            (agreementNarrow message pids results).filter
              (fun r => !isIrrelevantParentingSection r.text)
          else agreementNarrow message pids results) := by
  refine ⟨?_, ?_, ?_⟩
  · intro message pids results h
    simp only [agreementNarrow] at h
    split at h
    · split at h
      · rename_i hcond
        rw [h] at hcond
        simp at hcond
      · exact h
    · exact h
  · intro message pids results hq hp hf
    have hemp : (results.filter fun r => pids.contains r.documentId).isEmpty
        = false := by
      rcases hb : (results.filter fun r => pids.contains r.documentId).isEmpty
      · exact hb
      · exact absurd (List.isEmpty_iff.mp hb) hf
    simp only [agreementNarrow]
    rw [if_pos (by simp [hq, hp]), hemp]
    simp
  · intro message pids results
    unfold postFilterResults parentingFilter
    rfl

/-- Witness for C6's amended theorem: a query targeting the agreement with
one preferred document among two result rows narrows to that document's
row. -/
theorem postFilterResults_agreement_narrowing_witness :
    agreementNarrow "agreement" ["d1"] agreementWitnessRows =
      agreementWitnessRows.filter (fun r => ["d1"].contains r.documentId) :=
  postFilterResults_agreement_narrowing.2.1 "agreement" ["d1"]
    agreementWitnessRows (by decide) (by decide) (by decide)

/-- Counterexample to C7: for a case with zero indexed chunks but one
uploaded document, the no-indexed-content answer has an empty `next_steps`
list (the upload suggestion is only added when the documents list is empty)
and `missing_or_requested_docs` is empty — there is never a
missing-document suggestion on this path. -/
theorem chatNoIndexedContent_no_suggestions :
    (chatNoIndexedContentResponse "case1" "req1" noIndexedCexDocs).1.next_steps
        = [] ∧
      (chatNoIndexedContentResponse "case1" "req1"
        noIndexedCexDocs).1.missing_or_requested_docs = [] :=
  ⟨by decide, by decide⟩

/-- C7 as amended.  For a case with zero indexed chunks, the chat route's
no-indexed-content branch answers without any LLM generation call, with
`meta.used_retrieval = false`; its `next_steps` is non-empty (the upload
action) exactly when the case has no documents at all, and
`missing_or_requested_docs` is always empty. -/
theorem chatNoIndexedContent_behavior :
    ∀ (caseId requestId : String) (docs : List DocListEntry),
      (chatNoIndexedContentResponse caseId requestId
          docs).1.meta.used_retrieval = false
      ∧ (chatNoIndexedContentResponse caseId requestId docs).2 = 0
      ∧ (chatNoIndexedContentResponse caseId requestId
          docs).1.missing_or_requested_docs = []
      ∧ ((chatNoIndexedContentResponse caseId requestId docs).1.next_steps ≠ []
          ↔ docs = [])
      ∧ (docs = [] →
          (chatNoIndexedContentResponse caseId requestId docs).1.next_steps =
            [⟨"Upload a case document.", .user, .high⟩]) := by
  intro caseId requestId docs
  cases docs <;>
    simp [chatNoIndexedContentResponse, buildDocumentsListResponse]

/-- Witness for C7's amended theorem: with no documents at all, the branch
suggests an upload. -/
theorem chatNoIndexedContent_behavior_witness :
    (chatNoIndexedContentResponse "case1" "req2" []).1.next_steps =
      [⟨"Upload a case document.", .user, .high⟩] :=
  (chatNoIndexedContent_behavior "case1" "req2" []).2.2.2.2 rfl

/-- Counterexample to C8: a `user_note` SourceRef with all five identifier
fields null is accepted by the discriminated-union schema, yet has zero —
not exactly one — non-null identifier fields. -/
theorem sourceRef_user_note_zero_non_null :
    sourceRefAccepted userNoteCexRef = true ∧ nonNullCount userNoteCexRef = 0 :=
  ⟨by decide, by decide⟩

/-- C8 as amended.  Every SourceRef accepted by the schema has exactly one
of the five identifier fields non-null, matching the `ref_type`
discriminant (with the transcript list non-empty) — except the `user_note`
variant, where all five are null; and `buildDocumentSourceRef` always
constructs an accepted document ref with exactly one non-null field. -/
theorem sourceRef_discriminant_exclusive :
    (∀ r : SourceRef, sourceRefAccepted r = true →
      (r.ref_type = .user_note → nonNullCount r = 0)
      ∧ (r.ref_type ≠ .user_note →
          nonNullCount r = 1 ∧ discriminantMatches r = true))
    ∧ (∀ caseId dvid label : String,
        sourceRefAccepted (buildDocumentSourceRef caseId dvid label) = true
        ∧ nonNullCount (buildDocumentSourceRef caseId dvid label) = 1
        ∧ (buildDocumentSourceRef caseId dvid label).ref_type = .document) := by
  constructor
  · rintro ⟨rt, cid, dvi, tmi, eid, tev, ln, loc, conf⟩ h
    cases rt <;>
      cases dvi <;> cases tmi <;> cases eid <;> cases tev <;> cases ln <;>
        simp_all [sourceRefAccepted, nonNullCount, discriminantMatches,
          ← List.length_eq_zero] <;>
        omega
  · intro caseId dvid label
    refine ⟨?_, ?_, rfl⟩ <;>
      simp [buildDocumentSourceRef, sourceRefAccepted, nonNullCount]

/-- Witness for C8's amended theorem at a concrete accepted document
SourceRef. -/
theorem sourceRef_discriminant_exclusive_witness :
    nonNullCount (buildDocumentSourceRef "c" "d" "plan.pdf") = 1 ∧
      discriminantMatches (buildDocumentSourceRef "c" "d" "plan.pdf") = true :=
  (sourceRef_discriminant_exclusive.1 (buildDocumentSourceRef "c" "d" "plan.pdf")
      (by decide)).2 (by decide)

/-- C1. Whenever the first synthesis response fails to parse against the
answer schema, or parses but fails citation coverage (empty evidence, a
what-helps/what-hurts item without citations, or claiming retrieval was not
used while indexed content exists), exactly one retry generation call is
issued — never zero, never more than one — the retry's parsed output is
accepted as the answer regardless of whether it still fails coverage, and
the fixed low-confidence failure answer is returned only when the retry's
output fails to parse. -/
theorem chat_citation_retry_policy :
    ∀ (first retry : Option ChatResponse) (hasFiles : Bool) (message : String),
      (synthesisPipeline first retry hasFiles message).1 ≤ 1
      ∧ (first = none →
          (synthesisPipeline first retry hasFiles message).1 = 1)
      ∧ (∀ r, first = some r →
          (r.evidence = [] ∨
            r.what_helps.any (fun i => i.source_refs.isEmpty) = true ∨
            r.what_hurts.any (fun i => i.source_refs.isEmpty) = true ∨
            (r.meta.used_retrieval = false ∧ hasFiles = true)) →
          (synthesisPipeline first retry hasFiles message).1 = 1)
      ∧ (∀ r', retry = some r' →
          (synthesisPipeline first retry hasFiles message).1 = 1 →
          (synthesisPipeline first retry hasFiles message).2 = .validated r')
      ∧ (∀ res,
          (synthesisPipeline first retry hasFiles message).2 = .failure res →
          retry = none ∧
            (synthesisPipeline first retry hasFiles message).1 = 1 ∧
            res = chatValidationFailureResponse hasFiles) := by
  intro first retry hasFiles message
  refine ⟨?_, ?_, ?_, ?_, ?_⟩
  · unfold synthesisPipeline
    by_cases hc : synthesisRetryCondition first hasFiles message = true
    · cases retry <;> simp [hc]
    · cases first <;> simp [hc]
  · intro hf
    subst hf
    have hc : synthesisRetryCondition none hasFiles message = true := rfl
    unfold synthesisPipeline
    cases retry <;> simp [hc]
  · intro r hf htrig
    subst hf
    have hc : synthesisRetryCondition (some r) hasFiles message = true := by
      unfold synthesisRetryCondition needsCitationRetry
      rcases htrig with h | h | h | h
      · simp [h]
      · simp [h]
      · simp [h]
      · simp [h.1]
    unfold synthesisPipeline
    cases retry <;> simp [hc]
  · intro r' hr hn
    subst hr
    unfold synthesisPipeline at hn ⊢
    by_cases hc : synthesisRetryCondition first hasFiles message = true
    · simp [hc]
    · cases first <;> simp_all [synthesisRetryCondition]
  · intro res hres
    unfold synthesisPipeline at hres
    by_cases hc : synthesisRetryCondition first hasFiles message = true
    · rw [if_pos hc] at hres
      cases retry with
      | none =>
        refine ⟨rfl, ?_, ?_⟩
        · unfold synthesisPipeline
          rw [if_pos hc]
        · simp at hres
          exact hres.symm
      | some r' => simp at hres
    · rw [if_neg hc] at hres
      cases first with
      | none => exact absurd rfl hc
      | some r => simp at hres

/-- Witness for C1: a first response that fails to parse triggers exactly
one retry, and the retry's output — which itself still fails coverage
(empty evidence) — is accepted as the answer. -/
theorem chat_citation_retry_policy_witness :
    (synthesisPipeline none (some uncoveredRetryResponse) true "q").1 = 1
    ∧ (synthesisPipeline none (some uncoveredRetryResponse) true "q").2 =
        .validated uncoveredRetryResponse
    ∧ needsCitationRetry uncoveredRetryResponse = true :=
  ⟨(chat_citation_retry_policy none (some uncoveredRetryResponse) true
      "q").2.1 rfl,
    (chat_citation_retry_policy none (some uncoveredRetryResponse) true
      "q").2.2.2.1 uncoveredRetryResponse rfl
      ((chat_citation_retry_policy none (some uncoveredRetryResponse) true
        "q").2.1 rfl),
    by decide⟩

/-- Witness for C10: an unknown id over a one-case table yields the oldest
case; any id over an empty table creates the default case. -/
theorem getOrCreateCase_never_rejects_witness :
    getOrCreateCase (some "missing") [⟨"c1", "A"⟩] "f1" =
        (⟨"c1", "A"⟩, [⟨"c1", "A"⟩]) ∧
      getOrCreateCase (some "missing") [] "f2" =
        (⟨"f2", "Default Case"⟩, [⟨"f2", "Default Case"⟩]) :=
  ⟨getOrCreateCase_never_rejects.2.2.1 "missing" [⟨"c1", "A"⟩] ⟨"c1", "A"⟩ []
      "f1" rfl (by decide) (by decide),
    getOrCreateCase_never_rejects.2.2.2.2 (some "missing") "f2"⟩

end CourtPrep
